import Mathlib

/-!
Verification development for the credential-resolution and interactive-prompt
subsystem of the `gitstr` tool (`src/helpers.go`).

The embedding is a shallow one:

* Terminal input is a finite list of `ReadResult`s — each element is what one
  `rl.Readline()` call yields: either a typed line or a read error (interrupt,
  end of input, ...).  An exhausted list behaves like a closed stdin, which the
  readline library reports as an end-of-input error.
* The Local Config Store (`git config --local`) is an association list from
  setting names to string values.  Reading a missing key yields `""`, exactly
  as the Go code observes after discarding the `git` error.
* External collaborators that live outside this repository — the NIP-46 bunker
  client, the NIP-19 bech32 decoder and the NIP-49 decrypter — are parameters
  (fields of `Env`, or an explicit `decrypt` argument), per the spec's §6
  contract that only their signatures are in scope.
* Observable side effects (config reads/writes, the connection attempt, the
  secret prompt, the outcome of the store-confirmation) are recorded in an
  event trace so that persistence properties can be stated directly.
-/

namespace Gitstr

/-- Errors the readline collaborator can produce for a single read:
a user interrupt (`^C`), end of input (closed stdin), or anything else. -/
inductive ReadErr where
  | interrupt
  | eof
  | other (msg : String)
deriving DecidableEq, Repr

/-- One terminal read: either a typed line or a read error. -/
inductive ReadResult where
  | line (l : String)
  | err (e : ReadErr)
deriving DecidableEq, Repr

/-- ASCII whitespace, as trimmed by Go's `strings.TrimSpace` (which also trims
the rare non-ASCII Unicode spaces; no claim involves those). -/
def isSpaceChar (c : Char) : Bool :=
  c == ' ' || c == '\t' || c == '\n' || c == '\r' || c == '\x0b' || c == '\x0c'

/-- Trim leading and trailing whitespace from a character list. -/
def trimList (cs : List Char) : List Char :=
  ((cs.dropWhile isSpaceChar).reverse.dropWhile isSpaceChar).reverse

/-- Embeds Go's `strings.ToLower` (character-wise lowering; Go also lowers
non-ASCII letters, which no claim involves).  Defined over the character list
so that it evaluates by kernel reduction. -/
def toLowerStr (s : String) : String := ⟨s.data.map Char.toLower⟩

/-- Embeds `strings.TrimSpace(strings.ToLower(answer))` from `_ask`
(src/helpers.go:247). -/
def normalize (s : String) : String := ⟨trimList (toLowerStr s).data⟩

/-- Embeds Go's `strings.HasPrefix` over character lists. -/
def listStartsWith : List Char → List Char → Bool
  | _, [] => true
  | [], _ :: _ => false
  | c :: cs, p :: ps => c == p && listStartsWith cs ps

/-- Embeds Go's `strings.HasPrefix (s, pre)`. -/
def strStartsWith (s pre : String) : Bool := listStartsWith s.data pre.data

/-- A `shouldAskAgain` closure from the Go code, decomposed.  Each closure in
src/helpers.go switches on the answer; every branch returns a literal retry
decision and may assign captured variables.  Hence the retry decision is a
function of the answer alone (`retry`), and the assignments are a state update
determined by the answer (`update`); a branch that assigns nothing leaves the
state unchanged. -/
structure AskPred (σ : Type) where
  update : σ → String → σ
  retry : String → Bool

/-- The read loop of `_ask` (src/helpers.go:242-252): read one result; a read
error returns immediately; otherwise normalize the line, run the closure, and
either loop or return the normalized answer.  The state σ threads the
closure's captured variables; the remaining input list is returned so that
later prompts in the same run consume the rest of the stream. -/
def askLoop {σ : Type} (shouldAskAgain : Option (AskPred σ)) :
    σ → List ReadResult → Except ReadErr String × σ × List ReadResult
  | s, [] => (Except.error ReadErr.eof, s, [])
  | s, ReadResult.err e :: rest => (Except.error e, s, rest)
  | s, ReadResult.line l :: rest =>
    match shouldAskAgain with
    | none => (Except.ok (normalize l), s, rest)
    | some p =>
      if p.retry (normalize l) then askLoop shouldAskAgain (p.update s (normalize l)) rest
      else (Except.ok (normalize l), p.update s (normalize l), rest)

/-- Embeds `rl.WriteStdin([]byte(defaultValue))` (src/helpers.go:241): the
default value is prepended to the first line the user submits; it does not
affect later reads nor an immediate read error. -/
def withDefault (d : String) : List ReadResult → List ReadResult
  | ReadResult.line l :: rest => ReadResult.line (d ++ l) :: rest
  | other => other

/-- Embeds `_ask` (src/helpers.go:235-253).  The readline configuration
(colors, interrupt text, masking glyph) is presentation only and carries no
control flow, so it is not modelled. -/
def _ask {σ : Type} (defaultValue : String) (shouldAskAgain : Option (AskPred σ))
    (s : σ) (inputs : List ReadResult) : Except ReadErr String × σ × List ReadResult :=
  askLoop shouldAskAgain s (withDefault defaultValue inputs)

/-- Embeds `ask` (src/helpers.go:216-222): the unmasked variant, a direct
wrapper around `_ask`. -/
def ask {σ : Type} (defaultValue : String) (shouldAskAgain : Option (AskPred σ))
    (s : σ) (inputs : List ReadResult) : Except ReadErr String × σ × List ReadResult :=
  _ask defaultValue shouldAskAgain s inputs

/-- Embeds `askPassword` (src/helpers.go:224-233): the masked variant; it
passes an empty default and the same `_ask` loop (mask rendering is
presentation only). -/
def askPassword {σ : Type} (shouldAskAgain : Option (AskPred σ))
    (s : σ) (inputs : List ReadResult) : Except ReadErr String × σ × List ReadResult :=
  _ask "" shouldAskAgain s inputs

/-- The closure passed to `ask` by `confirm` (src/helpers.go:182-193):
"y"/"yes" set the captured `res` to true and accept, "n"/"no" set it to false
and accept, anything else re-prompts leaving `res` untouched. -/
def confirmPred : AskPred Bool where
  update := fun res answer =>
    match answer with
    | "y" => true
    | "yes" => true
    | "n" => false
    | "no" => false
    | _ => res
  retry := fun answer =>
    match answer with
    | "y" => false
    | "yes" => false
    | "n" => false
    | "no" => false
    | _ => true

/-- Embeds `confirm` (src/helpers.go:180-195): runs `ask` with `confirmPred`,
ignores the returned answer and error, and returns the captured `res`
(initially `false`) together with the unconsumed input. -/
def confirm (inputs : List ReadResult) : Bool × List ReadResult :=
  let r := ask "" (some confirmPred) false inputs
  (r.2.1, r.2.2)

/-- Errors of the decryption retry loop `promptDecrypt`: either a password
read failed (the readline error is carried unchanged) or the three attempts
were exhausted, which the Go code reports as the single constant message
"couldn't decrypt private key" (src/helpers.go:213) that carries none of the
per-attempt decrypt errors. -/
inductive DecErr where
  | read (e : ReadErr)
  | couldntDecrypt
deriving DecidableEq, Repr

/-- The body of the `for i := 1; i < 4; i++` loop of `promptDecrypt`
(src/helpers.go:197-214), recursing on the number of attempts still allowed
(3 at the top; the attempt-count suffix in the prompt text is presentation
only).  Besides the result it returns the list of passwords for which the
external decrypt primitive was actually called, in call order, and the
unconsumed input. -/
def promptDecryptAux (decrypt : String → String → Except String String)
    (ncryptsec1 : String) :
    Nat → List ReadResult → Except DecErr String × List String × List ReadResult
  | 0, inputs => (Except.error DecErr.couldntDecrypt, [], inputs)
  | n + 1, inputs =>
    match askPassword (σ := Unit) none () inputs with
    | (Except.error e, _, rest) => (Except.error (DecErr.read e), [], rest)
    | (Except.ok password, _, rest) =>
      match decrypt ncryptsec1 password with
      | Except.ok sec => (Except.ok sec, [password], rest)
      | Except.error _ =>
        let r := promptDecryptAux decrypt ncryptsec1 n rest
        (r.1, password :: r.2.1, r.2.2)

/-- Embeds `promptDecrypt` (src/helpers.go:197-214); `decrypt` stands for the
external `nip49.Decrypt` collaborator. -/
def promptDecrypt (decrypt : String → String → Except String String)
    (ncryptsec1 : String) (inputs : List ReadResult) :
    Except DecErr String × List String × List ReadResult :=
  promptDecryptAux decrypt ncryptsec1 3 inputs

/-- A hexadecimal character, as accepted by Go's `hex.DecodeString`. -/
def isHexChar (c : Char) : Bool :=
  (('0' ≤ c) && (c ≤ '9')) || (('a' ≤ c) && (c ≤ 'f')) || (('A' ≤ c) && (c ≤ 'F'))

/-- Embeds the external `nostr.IsValid32ByteHex` collaborator: the string must
already be lowercase, be 64 bytes long, and decode as hexadecimal (so it
denotes exactly 32 bytes). -/
def IsValid32ByteHex (s : String) : Bool :=
  toLowerStr s == s && s.utf8ByteSize == 64 && s.data.all isHexChar

/-- The Local Config Store (`git config --local`): an association list from
setting names to values. -/
abbrev Store := List (String × String)

/-- Reading a setting with a three-argument `git config --local <key>` call:
the Go call sites discard the `git` error, observing `""` for a missing key
(for example the `str.secretkey` read at src/helpers.go:50). -/
def gitGet (store : Store) (key : String) : String :=
  match store.find? (fun kv => kv.1 == key) with
  | some kv => kv.2
  | none => ""

/-- Writing a setting (`git config --local <key> <value>`): last write wins. -/
def gitSet (store : Store) (key value : String) : Store :=
  (key, value) :: store.filter (fun kv => kv.1 != key)

/-- An opaque handle to a remote signer session (`nip46.BunkerClient`). -/
structure Bunker where
  id : Nat
deriving DecidableEq, Repr

/-- External collaborators of the resolver: the freshly generated client key
(`nostr.GeneratePrivateKey()`), the `nip46.ConnectBunker` client (success must
be distinguishable from failure, per §6 of the spec), and the `nip19.Decode`
bech32 decoder, modelled on `nsec` strings as yielding the decoded hex value
or a decode error. -/
structure Env where
  clientKey : String
  connectBunker : String → String → Except String Bunker
  nip19Decode : String → Except String String

/-- The command-line options the resolver reads: `c.String("connect")`,
`c.String("sec")`, `c.IsSet("sec")` and `c.Bool("store-sec")`.  An unset
string option reads as `""`. -/
structure Options where
  connect : String
  sec : String
  secSet : Bool
  storeSec : Bool
deriving DecidableEq, Repr

/-- The error kinds `gatherSecretKeyOrBunker` can return: the connection error
surfaced verbatim from `ConnectBunker`, "couldn't gather secret key",
"invalid nsec: ..." wrapping the decode error, and "invalid secret key". -/
inductive GErr where
  | connection (msg : String)
  | couldntGather
  | invalidNsec (msg : String)
  | invalidSecretKey
deriving DecidableEq, Repr

/-- The resolution result, collapsing Go's `(bunker, key, encrypted, err)`
tuple: a remote session handle, or a key string with its encrypted flag. -/
inductive Credential where
  | remote (bunker : Bunker)
  | key (sec : String) (encrypted : Bool)
deriving DecidableEq, Repr

/-- Observable external actions of one resolver run, in order. -/
inductive Event where
  | getConfig (key : String)
  | askSecret
  | connectAttempt (clientKey url : String)
  | setConfig (key value : String)
  | confirmAnswer (answer : Bool)
deriving DecidableEq, Repr

/-- Everything a run of `gatherSecretKeyOrBunker` produces: the result, the
final store, the event trace, and the unconsumed terminal input. -/
structure GatherOut where
  result : Except GErr Credential
  store : Store
  events : List Event
  rest : List ReadResult
deriving Repr

/-- The closure passed to `ask` at src/helpers.go:55-69: a valid 32-byte hex
or an "nsec1"-tagged answer sets the captured `askToStore` and accepts; an
"ncryptsec1"-tagged answer accepts without touching it; anything else
re-prompts. -/
def secretPred : AskPred Bool where
  update := fun askToStore answer =>
    if IsValid32ByteHex answer then true
    else if strStartsWith answer "nsec1" then true
    else askToStore
  retry := fun answer =>
    if IsValid32ByteHex answer then false
    else if strStartsWith answer "nsec1" then false
    else if strStartsWith answer "ncryptsec1" then false
    else true

/-- Embeds src/helpers.go:48-73: determine the candidate secret string —
prefer the explicit option (also when explicitly set to empty), else the
stored setting, else prompt interactively; the prompt error is discarded
(`sec, _ = ask(...)`), and an empty outcome is the "couldn't gather secret
key" error.  Returns the secret with the `askToStore` flag, the events, and
the unconsumed input. -/
def resolveCandidate (c : Options) (store : Store) (inputs : List ReadResult) :
    Except GErr (String × Bool) × List Event × List ReadResult :=
  let sec₀ := c.sec
  let sec₁ := if sec₀ = "" ∧ c.secSet = false then gitGet store "str.secretkey" else sec₀
  let ev₁ : List Event :=
    if sec₀ = "" ∧ c.secSet = false then [Event.getConfig "str.secretkey"] else []
  if sec₁ = "" then
    match ask "" (some secretPred) false inputs with
    | (Except.error _, _, rest) =>
      (Except.error GErr.couldntGather, ev₁ ++ [Event.askSecret], rest)
    | (Except.ok answer, askToStore, rest) =>
      if answer = "" then (Except.error GErr.couldntGather, ev₁ ++ [Event.askSecret], rest)
      else (Except.ok (answer, askToStore), ev₁ ++ [Event.askSecret], rest)
  else (Except.ok (sec₁, false), ev₁, inputs)

/-- Embeds src/helpers.go:75-96: classify the resolved secret.  An
"ncryptsec1"-tagged blob is persisted unconditionally and returned unchanged,
flagged encrypted.  An "nsec1"-tagged value is decoded (failure is "invalid
nsec"), then the (possibly decoded) value must be a valid 32-byte hex.  A
plain key is persisted only if (`askToStore` and the user confirms) or the
`store-sec` option is set; per Go's left-to-right evaluation the confirmation
prompt runs whenever `askToStore` is true. -/
def finishKey (env : Env) (c : Options) (secIn : String) (askToStore : Bool)
    (store : Store) (inputs : List ReadResult) : GatherOut :=
  if strStartsWith secIn "ncryptsec1" then
    { result := Except.ok (Credential.key secIn true),
      store := gitSet store "str.secretkey" secIn,
      events := [Event.setConfig "str.secretkey" secIn],
      rest := inputs }
  else
    match (if strStartsWith secIn "nsec1" then
             match env.nip19Decode secIn with
             | Except.error e => Except.error (GErr.invalidNsec e)
             | Except.ok hexv => Except.ok hexv
           else Except.ok secIn : Except GErr String) with
    | Except.error e =>
      { result := Except.error e, store := store, events := [], rest := inputs }
    | Except.ok sec =>
      if IsValid32ByteHex sec = false then
        { result := Except.error GErr.invalidSecretKey, store := store,
          events := [], rest := inputs }
      else
        match (if askToStore then
                 match confirm inputs with
                 | (confirmed, rest₁) => (confirmed, rest₁, [Event.confirmAnswer confirmed])
               else (false, inputs, ([] : List Event))) with
        | (confirmed, rest₁, ev₁) =>
          if (askToStore && confirmed) || c.storeSec then
            { result := Except.ok (Credential.key sec false),
              store := gitSet store "str.secretkey" sec,
              events := ev₁ ++ [Event.setConfig "str.secretkey" sec],
              rest := rest₁ }
          else
            { result := Except.ok (Credential.key sec false), store := store,
              events := ev₁, rest := rest₁ }

/-- Embeds `gatherSecretKeyOrBunker` (src/helpers.go:29-97).  The bunker url
starts as the explicit `connect` option.  When that is empty, line 37 runs
`git("config", "--local", "str.bunker", bunkerURL)` with `bunkerURL` empty —
a four-argument `git config` call, which is a write: it overwrites the
stored `str.bunker` setting with the empty string and prints nothing, so
`bunkerURL` stays empty (the stored address is never read; contrast the
three-argument `str.secretkey` read at line 50).  Hence the remote path runs
exactly when the `connect` option is non-empty: on success it persists the
url with the fresh client key's session, on failure it returns the
connection error.  Otherwise the resolver falls through to the local-key
path over the store with `str.bunker` cleared. -/
def gatherSecretKeyOrBunker (env : Env) (c : Options) (store : Store)
    (inputs : List ReadResult) : GatherOut :=
  let bunkerURL := if c.connect = "" then "" else c.connect
  let store₀ := if c.connect = "" then gitSet store "str.bunker" "" else store
  let ev₀ : List Event := if c.connect = "" then [Event.setConfig "str.bunker" ""] else []
  if bunkerURL ≠ "" then
    match env.connectBunker env.clientKey bunkerURL with
    | Except.ok b =>
      { result := Except.ok (Credential.remote b),
        store := gitSet store₀ "str.bunker" bunkerURL,
        events := ev₀ ++ [Event.connectAttempt env.clientKey bunkerURL,
                          Event.setConfig "str.bunker" bunkerURL],
        rest := inputs }
    | Except.error e =>
      { result := Except.error (GErr.connection e), store := store₀,
        events := ev₀ ++ [Event.connectAttempt env.clientKey bunkerURL],
        rest := inputs }
  else
    match resolveCandidate c store₀ inputs with
    | (Except.error e, ev, rest) =>
      { result := Except.error e, store := store₀, events := ev₀ ++ ev, rest := rest }
    | (Except.ok (sec, askToStore), ev, rest) =>
      let out := finishKey env c sec askToStore store₀ rest
      { out with events := ev₀ ++ ev ++ out.events }

/-! Helper lemmas about the prompt engine. -/

theorem withDefault_empty (xs : List ReadResult) : withDefault "" xs = xs := by
  cases xs with
  | nil => rfl
  | cons hd tl =>
    cases hd with
    | line l =>
      show ReadResult.line ("" ++ l) :: tl = ReadResult.line l :: tl
      rw [String.empty_append]
    | err e => rfl

theorem askLoop_ok_retry {σ : Type} (p : AskPred σ) :
    ∀ (inputs : List ReadResult) (s s' : σ) (a : String) (rest : List ReadResult),
      askLoop (some p) s inputs = (Except.ok a, s', rest) → p.retry a = false := by
  intro inputs
  induction inputs with
  | nil => intro s s' a rest h; simp [askLoop] at h
  | cons hd tl ih =>
    intro s s' a rest h
    cases hd with
    | err e => simp [askLoop] at h
    | line l =>
      simp only [askLoop] at h
      by_cases hr : p.retry (normalize l) = true
      · rw [if_pos hr] at h
        exact ih _ _ _ _ h
      · rw [if_neg hr] at h
        have ha : a = normalize l := by
          have := congrArg Prod.fst h
          simp at this
          exact this.symm
        rw [ha]
        exact eq_false_of_ne_true hr

theorem askLoop_ok_answer {σ : Type} (p : AskPred σ) :
    ∀ (inputs : List ReadResult) (s s' : σ) (a : String) (rest : List ReadResult),
      askLoop (some p) s inputs = (Except.ok a, s', rest) →
      ∃ s₀ : σ, s' = p.update s₀ a := by
  intro inputs
  induction inputs with
  | nil => intro s s' a rest h; simp [askLoop] at h
  | cons hd tl ih =>
    intro s s' a rest h
    cases hd with
    | err e => simp [askLoop] at h
    | line l =>
      simp only [askLoop] at h
      by_cases hr : p.retry (normalize l) = true
      · rw [if_pos hr] at h
        exact ih _ _ _ _ h
      · rw [if_neg hr] at h
        have ha : a = normalize l := by
          have := congrArg Prod.fst h
          simp at this
          exact this.symm
        have hs : s' = p.update s (normalize l) := by
          have := congrArg (fun x => x.2.1) h
          simp at this
          exact this.symm
        exact ⟨s, by rw [hs, ha]⟩

theorem confirmPred_retry_iff (a : String) :
    confirmPred.retry a = true ↔ (a ≠ "y" ∧ a ≠ "yes" ∧ a ≠ "n" ∧ a ≠ "no") := by
  unfold confirmPred
  dsimp only
  constructor
  · intro h
    refine ⟨?_, ?_, ?_, ?_⟩ <;> intro he <;> subst he <;> simp at h
  · intro ⟨h1, h2, h3, h4⟩
    split
    · exact absurd rfl h1
    · exact absurd rfl h2
    · exact absurd rfl h3
    · exact absurd rfl h4
    · rfl

theorem confirmPred_update_eq (s : Bool) (a : String) :
    confirmPred.update s a =
      if confirmPred.retry a = true then s else (a == "y" || a == "yes") := by
  by_cases h : confirmPred.retry a = true
  · rw [if_pos h]
    rw [confirmPred_retry_iff] at h
    obtain ⟨h1, h2, h3, h4⟩ := h
    show confirmPred.update s a = s
    unfold confirmPred
    dsimp only
    split
    · exact absurd rfl h1
    · exact absurd rfl h2
    · exact absurd rfl h3
    · exact absurd rfl h4
    · rfl
  · rw [if_neg h]
    have h' : ¬(a ≠ "y" ∧ a ≠ "yes" ∧ a ≠ "n" ∧ a ≠ "no") := fun hc => h ((confirmPred_retry_iff a).mpr hc)
    push_neg at h'
    by_cases hy : a = "y"
    · subst hy; rfl
    by_cases hyes : a = "yes"
    · subst hyes; rfl
    by_cases hn : a = "n"
    · subst hn; rfl
    have hno : a = "no" := h' hy hyes hn
    subst hno; rfl

theorem askLoop_confirm_err :
    ∀ (inputs : List ReadResult) (b b' : Bool) (e : ReadErr) (rest : List ReadResult),
      askLoop (some confirmPred) b inputs = (Except.error e, b', rest) → b' = b := by
  intro inputs
  induction inputs with
  | nil =>
    intro b b' e rest h
    simp [askLoop] at h
    exact h.2.1.symm
  | cons hd tl ih =>
    intro b b' e rest h
    cases hd with
    | err e' =>
      simp [askLoop] at h
      exact h.2.1.symm
    | line l =>
      simp only [askLoop] at h
      by_cases hr : confirmPred.retry (normalize l) = true
      · rw [if_pos hr] at h
        have := ih _ _ _ _ h
        rwa [confirmPred_update_eq, if_pos hr] at this
      · rw [if_neg hr] at h
        simp at h

theorem askLoop_confirm_ok :
    ∀ (inputs : List ReadResult) (b b' : Bool) (a : String) (rest : List ReadResult),
      askLoop (some confirmPred) b inputs = (Except.ok a, b', rest) →
      b' = (a == "y" || a == "yes") := by
  intro inputs b b' a rest h
  obtain ⟨s₀, hs⟩ := askLoop_ok_answer confirmPred inputs b b' a rest h
  have hr := askLoop_ok_retry confirmPred inputs b b' a rest h
  rw [hs, confirmPred_update_eq, if_neg (by rw [hr]; exact Bool.false_ne_true)]

/-- C4.  The claim says the trim-and-lowercase normalization is applied only
by the unmasked variant and that the masked variant (`askPassword`, used for
passphrases) preserves the case of what was typed.  The code contradicts
this: `askPassword` shares `_ask`'s read loop, which lowercases and trims
every answer unconditionally (src/helpers.go:247), so the typed passphrase
"Secret" comes back as "secret".  The spec itself states "passwords must not
be case-folded", so this is a defect of the code: the passphrase handed to
the external decrypter is case-folded, and a passphrase containing an
uppercase letter can never decrypt the stored key. -/
theorem c4_askPassword_casefolds :
    askPassword (σ := Unit) none () [ReadResult.line "Secret"]
      = (Except.ok "secret", (), []) ∧ ("secret" : String) ≠ "Secret" :=
  ⟨rfl, by decide⟩

/-- C5.  The prompt engine's read loop never returns an answer for which the
`shouldRetry` predicate returned true: whenever `_ask` returns without error,
the predicate rejected re-prompting on exactly the answer returned.  (In the
embedding the loop is total on a finite input stream: it ends only by
accepting an answer or by a read error, an exhausted stream being the
end-of-input read error.) -/
theorem c5_ask_never_returns_retried {σ : Type} (defaultValue : String)
    (p : AskPred σ) (s s' : σ) (inputs rest : List ReadResult) (a : String)
    (h : _ask defaultValue (some p) s inputs = (Except.ok a, s', rest)) :
    p.retry a = false :=
  askLoop_ok_retry p (withDefault defaultValue inputs) s s' a rest h

/-- A concrete predicate for the C5 witness: retry until the answer is "ok",
counting the reads. -/
def c5CountPred : AskPred Nat where
  update := fun n _ => n + 1
  retry := fun a => a != "ok"

theorem c5_witness :
    _ask "" (some c5CountPred) 0 [ReadResult.line "nah", ReadResult.line "OK "]
        = (Except.ok "ok", 2, []) ∧
      c5CountPred.retry "ok" = false :=
  ⟨rfl, c5_ask_never_returns_retried "" c5CountPred 0 2
    [ReadResult.line "nah", ReadResult.line "OK "] [] "ok" rfl⟩

/-- C10.  The `confirm` helper re-prompts exactly on normalized answers other
than "y", "yes", "n", "no"; when the loop accepts an answer, `confirm`
returns true iff that answer is "y" or "yes"; and when the underlying read
fails (for example the user interrupts the confirmation prompt), the error is
discarded and `confirm` returns false — indistinguishable from an explicit
decline. -/
theorem c10_confirm_spec :
    (∀ a : String,
      confirmPred.retry a = true ↔ (a ≠ "y" ∧ a ≠ "yes" ∧ a ≠ "n" ∧ a ≠ "no")) ∧
    (∀ (inputs rest : List ReadResult) (a : String) (b : Bool),
      _ask "" (some confirmPred) false inputs = (Except.ok a, b, rest) →
      confirm inputs = ((a == "y" || a == "yes"), rest)) ∧
    (∀ (inputs rest : List ReadResult) (e : ReadErr) (b : Bool),
      _ask "" (some confirmPred) false inputs = (Except.error e, b, rest) →
      confirm inputs = (false, rest)) := by
  refine ⟨confirmPred_retry_iff, ?_, ?_⟩
  · intro inputs rest a b h
    have hb := askLoop_confirm_ok (withDefault "" inputs) false b a rest h
    unfold confirm ask _ask
    unfold _ask at h
    rw [h, hb]
  · intro inputs rest e b h
    have hb := askLoop_confirm_err (withDefault "" inputs) false b e rest h
    unfold confirm ask _ask
    unfold _ask at h
    rw [h, hb]

theorem c10_witness :
    _ask "" (some confirmPred) false [ReadResult.line "Maybe", ReadResult.line "YES"]
        = (Except.ok "yes", true, []) ∧
      confirm [ReadResult.line "Maybe", ReadResult.line "YES"] = (true, []) ∧
      confirm [ReadResult.err ReadErr.interrupt] = (false, []) :=
  ⟨rfl,
   c10_confirm_spec.2.1 [ReadResult.line "Maybe", ReadResult.line "YES"] [] "yes" true rfl,
   c10_confirm_spec.2.2 [ReadResult.err ReadErr.interrupt] [] ReadErr.interrupt false rfl⟩

/-! Helper lemmas about the decryption retry loop. -/

theorem promptDecryptAux_trace_len (d : String → String → Except String String)
    (b : String) :
    ∀ (n : Nat) (inputs : List ReadResult),
      (promptDecryptAux d b n inputs).2.1.length ≤ n := by
  intro n
  induction n with
  | zero => intro inputs; simp [promptDecryptAux]
  | succ m ih =>
    intro inputs
    cases inputs with
    | nil => simp [promptDecryptAux, askPassword, _ask, withDefault, askLoop]
    | cons hd tl =>
      cases hd with
      | err e => simp [promptDecryptAux, askPassword, _ask, withDefault, askLoop]
      | line l =>
        simp only [promptDecryptAux, askPassword, _ask, withDefault_empty, askLoop,
          String.empty_append]
        cases hdec : d b (normalize l) with
        | ok sec => simp
        | error m' =>
          simp only [List.length_cons]
          have := ih tl
          omega

theorem promptDecryptAux_ok (d : String → String → Except String String) (b : String) :
    ∀ (n : Nat) (inputs rest : List ReadResult) (sec : String) (tr : List String),
      promptDecryptAux d b n inputs = (Except.ok sec, tr, rest) →
      ∃ pws pw, tr = pws ++ [pw] ∧ d b pw = Except.ok sec ∧
        ∀ q ∈ pws, ∃ m, d b q = Except.error m := by
  intro n
  induction n with
  | zero => intro inputs rest sec tr h; simp [promptDecryptAux] at h
  | succ m ih =>
    intro inputs rest sec tr h
    cases inputs with
    | nil => simp [promptDecryptAux, askPassword, _ask, withDefault, askLoop] at h
    | cons hd tl =>
      cases hd with
      | err e => simp [promptDecryptAux, askPassword, _ask, withDefault, askLoop] at h
      | line l =>
        simp only [promptDecryptAux, askPassword, _ask, withDefault_empty, askLoop,
          String.empty_append] at h
        cases hdec : d b (normalize l) with
        | ok sec' =>
          rw [hdec] at h
          simp at h
          obtain ⟨hs, htr, hrest⟩ := h
          refine ⟨[], normalize l, by simp [htr.symm], ?_, by simp⟩
          rw [hdec, hs]
        | error m' =>
          rw [hdec] at h
          rcases hr : promptDecryptAux d b m tl with ⟨r1, tr1, rest1⟩
          rw [hr] at h
          simp at h
          obtain ⟨h1, h2, h3⟩ := h
          obtain ⟨pws, pw, hsplit, hok, hfail⟩ := ih tl rest1 sec tr1 (by rw [hr, h1])
          refine ⟨normalize l :: pws, pw, by simp [h2.symm, hsplit], hok, ?_⟩
          intro q hq
          rcases List.mem_cons.mp hq with hq' | hq'
          · exact ⟨m', by rw [hq', hdec]⟩
          · exact hfail q hq'

theorem promptDecryptAux_exhaust (d : String → String → Except String String)
    (b : String) :
    ∀ (n : Nat) (inputs rest : List ReadResult) (r : Except DecErr String)
      (tr : List String),
      promptDecryptAux d b n inputs = (r, tr, rest) →
      (∀ q ∈ tr, ∃ m, d b q = Except.error m) → tr.length = n →
      r = Except.error DecErr.couldntDecrypt := by
  intro n
  induction n with
  | zero =>
    intro inputs rest r tr h hfail hlen
    simp [promptDecryptAux] at h
    exact h.1.symm
  | succ m ih =>
    intro inputs rest r tr h hfail hlen
    cases inputs with
    | nil =>
      simp [promptDecryptAux, askPassword, _ask, withDefault, askLoop] at h
      rw [h.2.1] at hlen
      simp at hlen
    | cons hd tl =>
      cases hd with
      | err e =>
        simp [promptDecryptAux, askPassword, _ask, withDefault, askLoop] at h
        rw [h.2.1] at hlen
        simp at hlen
      | line l =>
        simp only [promptDecryptAux, askPassword, _ask, withDefault_empty, askLoop,
          String.empty_append] at h
        cases hdec : d b (normalize l) with
        | ok sec' =>
          rw [hdec] at h
          simp at h
          obtain ⟨h1, h2, h3⟩ := h
          obtain ⟨mm, hmm⟩ := hfail (normalize l) (by rw [← h2]; simp)
          rw [hdec] at hmm
          exact absurd hmm (by simp)
        | error m' =>
          rw [hdec] at h
          rcases hr : promptDecryptAux d b m tl with ⟨r1, tr1, rest1⟩
          rw [hr] at h
          simp at h
          obtain ⟨h1, h2, h3⟩ := h
          have := ih tl rest1 r1 tr1 hr
            (fun q hq => hfail q (by rw [← h2]; simp [hq]))
            (by rw [← h2] at hlen; simp at hlen; exact hlen)
          rw [← h1]
          exact this

theorem promptDecryptAux_readErr (d : String → String → Except String String)
    (b : String) (e : ReadErr) (rest : List ReadResult) :
    ∀ (pws : List String) (n : Nat), pws.length < n →
      (∀ pw ∈ pws, ∃ m, d b (normalize pw) = Except.error m) →
      promptDecryptAux d b n (pws.map ReadResult.line ++ ReadResult.err e :: rest)
        = (Except.error (DecErr.read e), pws.map normalize, rest) := by
  intro pws
  induction pws with
  | nil =>
    intro n hn hf
    cases n with
    | zero => omega
    | succ m => simp [promptDecryptAux, askPassword, _ask, withDefault, askLoop]
  | cons p ps ih =>
    intro n hn hf
    cases n with
    | zero => omega
    | succ m =>
      simp only [List.map_cons, List.cons_append, promptDecryptAux, askPassword, _ask,
        withDefault_empty, askLoop, String.empty_append]
      obtain ⟨m', hm'⟩ := hf p (by simp)
      rw [hm']
      simp only [List.append_eq]
      rw [ih m (by simp at hn ⊢; omega) (fun pw hpw => hf pw (by simp [hpw]))]

/-- C2.  Per invocation, the decryption retry loop calls the external decrypt
primitive at most 3 times (the trace lists the passwords it was called
with, in order); whenever it returns a plaintext, the last decrypt call
succeeded with exactly that plaintext and every earlier call failed (success
returns immediately, with no further attempts); and when all 3 attempts were
made and failed, the result is the single constant "couldn't decrypt" error,
which carries none of the per-attempt decrypt errors. -/
theorem c2_promptDecrypt_bounded (decrypt : String → String → Except String String)
    (blob : String) (inputs rest : List ReadResult) (r : Except DecErr String)
    (tr : List String)
    (h : promptDecrypt decrypt blob inputs = (r, tr, rest)) :
    tr.length ≤ 3 ∧
    (∀ sec, r = Except.ok sec →
      ∃ pws pw, tr = pws ++ [pw] ∧ decrypt blob pw = Except.ok sec ∧
        ∀ q ∈ pws, ∃ m, decrypt blob q = Except.error m) ∧
    ((∀ q ∈ tr, ∃ m, decrypt blob q = Except.error m) → tr.length = 3 →
      r = Except.error DecErr.couldntDecrypt) := by
  unfold promptDecrypt at h
  refine ⟨?_, ?_, ?_⟩
  · have := promptDecryptAux_trace_len decrypt blob 3 inputs
    rw [h] at this
    exact this
  · intro sec hsec
    exact promptDecryptAux_ok decrypt blob 3 inputs rest sec tr (by rw [h, hsec])
  · intro hfail hlen
    exact promptDecryptAux_exhaust decrypt blob 3 inputs rest r tr h hfail hlen

/-- A decrypt collaborator for the C2 witness: only the password "pw"
succeeds. -/
def c2Decrypt : String → String → Except String String :=
  fun _ password => if password = "pw" then Except.ok "plain" else Except.error "bad"

theorem c2_witness :
    promptDecrypt c2Decrypt "blob" [ReadResult.line "x", ReadResult.line "pw"]
        = (Except.ok "plain", ["x", "pw"], []) ∧
      (["x", "pw"] : List String).length ≤ 3 ∧
      ∃ pws pw, (["x", "pw"] : List String) = pws ++ [pw] ∧
        c2Decrypt "blob" pw = Except.ok "plain" ∧
        ∀ q ∈ pws, ∃ m, c2Decrypt "blob" q = Except.error m := by
  have h := c2_promptDecrypt_bounded c2Decrypt "blob"
    [ReadResult.line "x", ReadResult.line "pw"] [] (Except.ok "plain") ["x", "pw"] rfl
  exact ⟨rfl, h.1, h.2.1 "plain" rfl⟩

/-- C9.  If the masked passphrase read itself fails on an attempt (for
example the user interrupts), the loop returns that read error unchanged at
once: the decrypt primitive is called only for the earlier, completed
attempts (the trace is exactly their passwords — the aborted read contributes
no decrypt call and consumes no attempt), and no further input is read. -/
theorem c9_promptDecrypt_read_error (decrypt : String → String → Except String String)
    (blob : String) (e : ReadErr) (pws : List String) (rest : List ReadResult)
    (hlen : pws.length ≤ 2)
    (hfail : ∀ pw ∈ pws, ∃ m, decrypt blob (normalize pw) = Except.error m) :
    promptDecrypt decrypt blob (pws.map ReadResult.line ++ ReadResult.err e :: rest)
      = (Except.error (DecErr.read e), pws.map normalize, rest) :=
  promptDecryptAux_readErr decrypt blob e rest pws 3 (by omega) hfail

/-- A decrypt collaborator for the C9 witness: every attempt fails. -/
def c9Decrypt : String → String → Except String String :=
  fun _ _ => Except.error "bad"

theorem c9_witness :
    promptDecrypt c9Decrypt "blob" [ReadResult.line "a", ReadResult.err ReadErr.interrupt]
      = (Except.error (DecErr.read ReadErr.interrupt), ["a"], []) := by
  have h := c9_promptDecrypt_read_error c9Decrypt "blob" ReadErr.interrupt ["a"] []
    (by simp) (fun pw _ => ⟨"bad", rfl⟩)
  simpa using h

/-! Helper lemmas about the resolver. -/

theorem resolveCandidate_events (c : Options) (store : Store) (inputs : List ReadResult) :
    ∀ ev ∈ (resolveCandidate c store inputs).2.1,
      ev = Event.getConfig "str.secretkey" ∨ ev = Event.askSecret := by
  intro ev hev
  unfold resolveCandidate at hev
  dsimp only at hev
  split at hev <;> split at hev <;>
    (try split at hev) <;> (try split at hev) <;> simp at hev <;> tauto

theorem resolveCandidate_askToStore (c : Options) (store : Store)
    (inputs rest : List ReadResult) (sec : String) (ev : List Event)
    (h : resolveCandidate c store inputs = (Except.ok (sec, true), ev, rest)) :
    Event.askSecret ∈ ev := by
  unfold resolveCandidate at h
  dsimp only at h
  split at h <;> split at h <;>
    (try split at h) <;> (try split at h) <;> simp at h <;>
    rw [← h.2.1] <;> simp

theorem finishKey_setConfig (env : Env) (c : Options) (secIn : String) (ats : Bool)
    (store : Store) (inputs : List ReadResult) (res : Except GErr Credential)
    (st : Store) (evs : List Event) (rst : List ReadResult) (v : String)
    (hF : finishKey env c secIn ats store inputs = ⟨res, st, evs, rst⟩)
    (hset : Event.setConfig "str.secretkey" v ∈ evs) :
    res = Except.ok (Credential.key secIn true) ∨ c.storeSec = true ∨
      Event.confirmAnswer true ∈ evs := by
  unfold finishKey at hF
  dsimp only at hF
  split at hF
  · simp [GatherOut.mk.injEq] at hF
    left
    rw [← hF.1]
  · split at hF
    · simp [GatherOut.mk.injEq] at hF
      simp_all
    · split at hF
      · simp [GatherOut.mk.injEq] at hF
        simp_all
      · split at hF
        · rcases hcf : confirm inputs with ⟨cb, crest⟩
          rw [hcf] at hF
          dsimp only at hF
          split at hF
          · rename_i hcond
            simp [GatherOut.mk.injEq] at hF
            by_cases hsc : c.storeSec = true
            · right; left; exact hsc
            · have hsc' : c.storeSec = false := by
                revert hsc; cases c.storeSec <;> simp
              rw [hsc', Bool.or_false, Bool.and_eq_true] at hcond
              right; right
              rw [← hF.2.2.1]
              simp [hcond.2]
          · simp [GatherOut.mk.injEq] at hF
            rw [← hF.2.2.1] at hset
            simp at hset
        · dsimp only at hF
          split at hF
          · rename_i hcond
            simp at hcond
            right; left; exact hcond
          · simp [GatherOut.mk.injEq] at hF
            simp_all

theorem finishKey_confirmAnswer (env : Env) (c : Options) (secIn : String) (ats : Bool)
    (store : Store) (inputs : List ReadResult) (res : Except GErr Credential)
    (st : Store) (evs : List Event) (rst : List ReadResult) (b : Bool)
    (hF : finishKey env c secIn ats store inputs = ⟨res, st, evs, rst⟩)
    (hmem : Event.confirmAnswer b ∈ evs) : ats = true := by
  unfold finishKey at hF
  dsimp only at hF
  split at hF
  · simp [GatherOut.mk.injEq] at hF
    rw [← hF.2.2.1] at hmem
    simp at hmem
  · split at hF
    · simp [GatherOut.mk.injEq] at hF
      simp_all
    · split at hF
      · simp [GatherOut.mk.injEq] at hF
        simp_all
      · split at hF
        · rename_i hats
          exact hats
        · dsimp only at hF
          split at hF
          · simp [GatherOut.mk.injEq] at hF
            rw [← hF.2.2.1] at hmem
            simp at hmem
          · simp [GatherOut.mk.injEq] at hF
            simp_all

/-- Filtering does not change the first hit of a search whose hits all
survive the filter. -/
theorem find?_filter_imp {α : Type} (p q : α → Bool) (l : List α)
    (h : ∀ a, p a = true → q a = true) :
    List.find? p (List.filter q l) = List.find? p l := by
  induction l with
  | nil => rfl
  | cons a tl ih =>
    by_cases hq : q a = true
    · by_cases hp : p a = true
      · simp [List.filter_cons, List.find?_cons, hq, hp]
      · simp [List.filter_cons, List.find?_cons, hq, hp, ih]
    · have hp : ¬p a = true := fun hpa => hq (h a hpa)
      simp [List.filter_cons, List.find?_cons, hq, hp, ih]

/-- Writing one setting leaves every other setting's value unchanged. -/
theorem gitGet_gitSet_ne (store : Store) (kw v k : String) (h : ¬(kw = k)) :
    gitGet (gitSet store kw v) k = gitGet store k := by
  have hbeq : (kw == k) = false := beq_eq_false_iff_ne.mpr h
  unfold gitGet gitSet
  have h2 : List.find? (fun kv => kv.1 == k)
        ((kw, v) :: List.filter (fun kv => kv.1 != kw) store)
      = List.find? (fun kv => kv.1 == k) store := by
    rw [List.find?_cons]
    simp only [hbeq]
    exact find?_filter_imp _ _ store (fun a ha => by
      have ha' : a.1 = k := by simpa using ha
      have hne : ¬(a.1 = kw) := by
        rw [ha']
        exact fun hk => h hk.symm
      simpa [bne_iff_ne] using hne)
  rw [h2]

/-- C1.  Whenever `gatherSecretKeyOrBunker` returns a plain key (PlainKey:
`encrypted = false`) and its run wrote the stored-secret setting, either the
`store-sec` force option was set or the interactive confirmation answered
yes; moreover a confirmation is only ever asked after the secret was gathered
by the interactive prompt. -/
theorem c1_plain_store_needs_consent (env : Env) (c : Options) (store : Store)
    (inputs : List ReadResult) (s v : String)
    (hres : (gatherSecretKeyOrBunker env c store inputs).result
      = Except.ok (Credential.key s false))
    (hset : Event.setConfig "str.secretkey" v
      ∈ (gatherSecretKeyOrBunker env c store inputs).events) :
    (c.storeSec = true ∨
      Event.confirmAnswer true ∈ (gatherSecretKeyOrBunker env c store inputs).events) ∧
    (∀ b : Bool, Event.confirmAnswer b ∈ (gatherSecretKeyOrBunker env c store inputs).events →
      Event.askSecret ∈ (gatherSecretKeyOrBunker env c store inputs).events) := by
  rcases hG : gatherSecretKeyOrBunker env c store inputs with ⟨res, st, evs, rst⟩
  rw [hG] at hres hset
  dsimp only at hres hset ⊢
  unfold gatherSecretKeyOrBunker at hG
  dsimp only at hG
  split at hG
  · split at hG
    · simp_all
    · rcases hrc : resolveCandidate c (gitSet store "str.bunker" "") inputs with
        ⟨rcr, rcev, rcrest⟩
      rw [hrc] at hG
      cases rcr with
      | error e =>
        dsimp only at hG
        simp [GatherOut.mk.injEq] at hG
        obtain ⟨h1, h2, h3, h4⟩ := hG
        rw [← h1] at hres
        simp at hres
      | ok p =>
        rcases p with ⟨sec₂, ats⟩
        dsimp only at hG
        rcases hF : finishKey env c sec₂ ats (gitSet store "str.bunker" "") rcrest with
          ⟨fres, fst, fevs, frst⟩
        rw [hF] at hG
        dsimp only at hG
        simp only [GatherOut.mk.injEq] at hG
        obtain ⟨h1, h2, h3, h4⟩ := hG
        rw [← h1] at hres
        rw [← h3] at hset ⊢
        have hsetf : Event.setConfig "str.secretkey" v ∈ fevs := by
          rcases List.mem_cons.mp hset with hh | hh
          · simp at hh
          · rcases List.mem_append.mp hh with hh' | hh'
            · rcases resolveCandidate_events c (gitSet store "str.bunker" "") inputs _
                  (by rw [hrc]; exact hh') with h5 | h5 <;> simp at h5
            · exact hh'
        constructor
        · rcases finishKey_setConfig env c sec₂ ats (gitSet store "str.bunker" "") rcrest
            fres fst fevs frst v hF
            hsetf with henc | hforce | hconf
          · rw [henc] at hres
            simp at hres
          · left; exact hforce
          · right
            exact List.mem_cons_of_mem _ (List.mem_append.mpr (Or.inr hconf))
        · intro b hb
          have hbf : Event.confirmAnswer b ∈ fevs := by
            rcases List.mem_cons.mp hb with hh | hh
            · simp at hh
            · rcases List.mem_append.mp hh with hh' | hh'
              · rcases resolveCandidate_events c (gitSet store "str.bunker" "") inputs _
                    (by rw [hrc]; exact hh') with h5 | h5 <;> simp at h5
              · exact hh'
          have hats := finishKey_confirmAnswer env c sec₂ ats (gitSet store "str.bunker" "")
            rcrest fres fst fevs frst b hF hbf
          rw [hats] at hrc
          have hask := resolveCandidate_askToStore c (gitSet store "str.bunker" "") inputs
            rcrest sec₂ rcev hrc
          exact List.mem_cons_of_mem _ (List.mem_append.mpr (Or.inl hask))
  · split at hG <;> simp [GatherOut.mk.injEq] at hG <;> simp_all

/-- An environment for the C1 witness: no bunker reachable, decoder always
fails (neither is exercised on the witness run). -/
def c1Env : Env where
  clientKey := "ck"
  connectBunker := fun _ _ => Except.error "unreachable"
  nip19Decode := fun _ => Except.error "bad"

/-- Options with everything unset, for the C1 witness. -/
def c1Opts : Options where
  connect := ""
  sec := ""
  secSet := false
  storeSec := false

/-- A valid 32-byte hex key for the C1 witness. -/
def c1Hex : String :=
  "aaaaaaaaaaaaaaaaaaaaaaaaaaaaaaaaaaaaaaaaaaaaaaaaaaaaaaaaaaaaaaaa"

theorem c1_witness :
    (gatherSecretKeyOrBunker c1Env c1Opts []
        [ReadResult.line c1Hex, ReadResult.line "y"]).result
      = Except.ok (Credential.key c1Hex false) ∧
    Event.setConfig "str.secretkey" c1Hex
      ∈ (gatherSecretKeyOrBunker c1Env c1Opts []
          [ReadResult.line c1Hex, ReadResult.line "y"]).events ∧
    (c1Opts.storeSec = true ∨
      Event.confirmAnswer true ∈ (gatherSecretKeyOrBunker c1Env c1Opts []
        [ReadResult.line c1Hex, ReadResult.line "y"]).events) :=
  ⟨rfl, by decide,
    (c1_plain_store_needs_consent c1Env c1Opts []
      [ReadResult.line c1Hex, ReadResult.line "y"] c1Hex c1Hex rfl (by decide)).1⟩

/-- An environment for C7: the bunker at the stored address "url0" is
reachable, so a connection attempt with it would succeed. -/
def c7Env : Env where
  clientKey := "ck"
  connectBunker := fun _ u => if u = "url0" then Except.ok ⟨7⟩ else Except.error "refused"
  nip19Decode := fun _ => Except.error "bad"

/-- Options with the connect option unset, for C7. -/
def c7Opts : Options where
  connect := ""
  sec := ""
  secSet := false
  storeSec := false

/-- C7.  The claim says the remote-agent address resolves from the explicit
connect option, else from the stored setting, and that a non-empty resolved
address makes Resolve attempt the connection and return on that path.  The
explicit-option half matches the code, but the stored-setting half does
not: with `connect` unset, src/helpers.go:37 executes
`git("config", "--local", "str.bunker", bunkerURL)` with `bunkerURL` empty —
a four-argument `git config` invocation, which is a write.  It overwrites
the stored address with the empty string and prints nothing, so the address
resolves to `""` and the stored address is never read.  The spec
("otherwise read the Stored Setting") is clearly the intent, and line 50
reads `str.secretkey` with the three-argument form, so line 37 is the slip.
The run below evaluates the resolver at the failing input — `connect`
unset, stored `str.bunker = "url0"` with a reachable bunker: no connection
is ever attempted, the stored address is destroyed (overwritten with `""`),
and the resolver falls through to the local-key path (here ending in the
"couldn't gather" error on an empty terminal). -/
theorem c7_stored_bunker_not_read :
    gatherSecretKeyOrBunker c7Env c7Opts [("str.bunker", "url0")] []
        = { result := Except.error GErr.couldntGather,
            store := [("str.bunker", "")],
            events := [Event.setConfig "str.bunker" "", Event.getConfig "str.secretkey",
              Event.askSecret],
            rest := [] } ∧
      (∀ ck u, Event.connectAttempt ck u
        ∉ (gatherSecretKeyOrBunker c7Env c7Opts [("str.bunker", "url0")] []).events) ∧
      c7Env.connectBunker c7Env.clientKey "url0" = Except.ok ⟨7⟩ :=
  ⟨rfl,
   fun ck u h => by
     have h2 : Event.connectAttempt ck u ∈ [Event.setConfig "str.bunker" "",
       Event.getConfig "str.secretkey", Event.askSecret] := h
     simp at h2,
   rfl⟩

/-- C8.  Whenever the resolved secret string carries the "ncryptsec1" tag —
whatever source it came from (the resolver reaches the secret path exactly
when the connect option is unset, the stored bunker setting having just been
wiped by the line-37 write) — the resolver persists exactly that string to
the stored-secret setting unconditionally (no confirmation is asked, the
force flag is irrelevant) and returns it unchanged with the encrypted flag
set; the decryption loop is not involved (no further input is consumed) and
the only secret-setting write of the run is the blob itself, never a
plaintext. -/
theorem c8_encrypted_stored_unconditionally (env : Env) (c : Options) (store : Store)
    (inputs rest : List ReadResult) (sec : String) (ats : Bool) (ev : List Event)
    (hcc : c.connect = "")
    (hc : resolveCandidate c (gitSet store "str.bunker" "") inputs
      = (Except.ok (sec, ats), ev, rest))
    (hs : strStartsWith sec "ncryptsec1" = true) :
    gatherSecretKeyOrBunker env c store inputs =
      { result := Except.ok (Credential.key sec true),
        store := gitSet (gitSet store "str.bunker" "") "str.secretkey" sec,
        events := [Event.setConfig "str.bunker" ""] ++ ev ++
          [Event.setConfig "str.secretkey" sec],
        rest := rest } := by
  unfold gatherSecretKeyOrBunker
  dsimp only
  rw [hcc]
  simp only [reduceIte]
  rw [if_neg (by simp), hc]
  dsimp only
  unfold finishKey
  dsimp only
  rw [if_pos hs]

/-- An environment for the C8 witness (no collaborator is exercised). -/
def c8Env : Env where
  clientKey := "ck"
  connectBunker := fun _ _ => Except.error "unreachable"
  nip19Decode := fun _ => Except.error "bad"

/-- Options passing an encrypted blob explicitly, for the C8 witness. -/
def c8Opts : Options where
  connect := ""
  sec := "ncryptsec1xyz"
  secSet := true
  storeSec := false

theorem c8_witness :
    c8Opts.connect = "" ∧
    resolveCandidate c8Opts (gitSet [] "str.bunker" "") []
      = (Except.ok ("ncryptsec1xyz", false), [], []) ∧
    strStartsWith "ncryptsec1xyz" "ncryptsec1" = true ∧
    gatherSecretKeyOrBunker c8Env c8Opts [] [] =
      { result := Except.ok (Credential.key "ncryptsec1xyz" true),
        store := [("str.secretkey", "ncryptsec1xyz"), ("str.bunker", "")],
        events := [Event.setConfig "str.bunker" "",
          Event.setConfig "str.secretkey" "ncryptsec1xyz"],
        rest := [] } := by
  refine ⟨rfl, rfl, by decide, ?_⟩
  have h := c8_encrypted_stored_unconditionally c8Env c8Opts [] [] []
    "ncryptsec1xyz" false [] rfl rfl (by decide)
  exact h

/-- An environment for C3: the decoder accepts exactly the stand-in
well-formed string "nsec1goodkey" and rejects everything else — in
particular "nsec1invalid", faithful to the real bech32 decoder, which
rejects it ('i' is not even in the bech32 character set, and the checksum
cannot match). -/
def c3Env : Env where
  clientKey := "ck"
  connectBunker := fun _ _ => Except.error "unreachable"
  nip19Decode := fun s =>
    if s = "nsec1goodkey" then
      Except.ok "bbbbbbbbbbbbbbbbbbbbbbbbbbbbbbbbbbbbbbbbbbbbbbbbbbbbbbbbbbbbbbbb"
    else Except.error "invalid checksum"

/-- Options with everything unset, for C3. -/
def c3Opts : Options where
  connect := ""
  sec := ""
  secSet := false
  storeSec := false

/-- C3, counterexample.  The claim says that on typing "nsec1invalid" the
secret validator rejects it and the prompt loop re-prompts, so that a
well-formed nsec typed next is accepted and resolution succeeds.  The code
instead accepts any "nsec1"-tagged answer by its tag alone (the prompt
closure only checks the tag, src/helpers.go:61), leaves the loop, and then
fails the whole resolution with an "invalid nsec" error when decoding fails
(src/helpers.go:80-83): the run below errors out and never consumes the
well-formed "nsec1goodkey" (still present in `rest`), refuting both the
re-prompt and the "resolution does not fail" parts.  (The run also records
the line-37 `str.bunker` wipe that precedes the prompt.) -/
theorem c3_counterexample :
    gatherSecretKeyOrBunker c3Env c3Opts []
        [ReadResult.line "nsec1invalid", ReadResult.line "nsec1goodkey",
          ReadResult.line "y"]
      = { result := Except.error (GErr.invalidNsec "invalid checksum"),
          store := [("str.bunker", "")],
          events := [Event.setConfig "str.bunker" "", Event.getConfig "str.secretkey",
            Event.askSecret],
          rest := [ReadResult.line "nsec1goodkey", ReadResult.line "y"] } := rfl

/-- C3, amended.  The interactive secret prompt accepts an "nsec1"-tagged
answer by its tag alone and stops prompting.  If bech32 decoding of that
answer then fails, Resolve fails with an "invalid nsec" error (no
re-prompt); if it decodes to a valid 32-byte hex — i.e. the typed nsec was
well-formed — Resolve returns that hex as the plain-key value. -/
theorem c3_nsec_tag_accepted (env : Env) (c : Options) (store : Store) (s : String)
    (rest : List ReadResult)
    (h1 : c.connect = "")
    (h3 : c.sec = "") (h4 : c.secSet = false) (h5 : gitGet store "str.secretkey" = "")
    (h6 : strStartsWith (normalize s) "nsec1" = true)
    (h7 : IsValid32ByteHex (normalize s) = false)
    (h8 : strStartsWith (normalize s) "ncryptsec1" = false) :
    (∀ e, env.nip19Decode (normalize s) = Except.error e →
      (gatherSecretKeyOrBunker env c store (ReadResult.line s :: rest)).result
        = Except.error (GErr.invalidNsec e)) ∧
    (∀ hexv, env.nip19Decode (normalize s) = Except.ok hexv →
      IsValid32ByteHex hexv = true →
      (gatherSecretKeyOrBunker env c store (ReadResult.line s :: rest)).result
        = Except.ok (Credential.key hexv false)) := by
  have hne : ¬(normalize s = "") := by
    intro hh
    rw [hh] at h6
    exact absurd h6 (by decide)
  have h5' : gitGet (gitSet store "str.bunker" "") "str.secretkey" = "" := by
    rw [gitGet_gitSet_ne store "str.bunker" "" "str.secretkey" (by decide)]
    exact h5
  have hrc : resolveCandidate c (gitSet store "str.bunker" "") (ReadResult.line s :: rest)
      = (Except.ok (normalize s, true),
          [Event.getConfig "str.secretkey", Event.askSecret], rest) := by
    unfold resolveCandidate
    dsimp only
    rw [h3, h4, h5']
    simp only [if_pos (And.intro rfl rfl), if_pos rfl]
    unfold ask _ask
    rw [withDefault_empty]
    simp only [askLoop]
    unfold secretPred
    dsimp only
    rw [h7, h6]
    simp [hne]
  constructor
  · intro e hdec
    unfold gatherSecretKeyOrBunker
    dsimp only
    rw [h1]
    simp only [reduceIte]
    rw [if_neg (by simp), hrc]
    dsimp only
    unfold finishKey
    dsimp only
    simp [h8, h6, hdec]
  · intro hexv hdec hv
    unfold gatherSecretKeyOrBunker
    dsimp only
    rw [h1]
    simp only [reduceIte]
    rw [if_neg (by simp), hrc]
    dsimp only
    unfold finishKey
    dsimp only
    simp [h8, h6, hdec, hv]
    rcases hcf : confirm rest with ⟨cb, crest⟩
    simp [hcf]
    split <;> rfl

theorem c3_witness :
    strStartsWith (normalize "nsec1goodkey") "nsec1" = true ∧
    IsValid32ByteHex (normalize "nsec1goodkey") = false ∧
    c3Env.nip19Decode (normalize "nsec1goodkey")
      = Except.ok "bbbbbbbbbbbbbbbbbbbbbbbbbbbbbbbbbbbbbbbbbbbbbbbbbbbbbbbbbbbbbbbb" ∧
    (gatherSecretKeyOrBunker c3Env c3Opts []
        [ReadResult.line "nsec1goodkey", ReadResult.line "n"]).result
      = Except.ok (Credential.key
          "bbbbbbbbbbbbbbbbbbbbbbbbbbbbbbbbbbbbbbbbbbbbbbbbbbbbbbbbbbbbbbbb" false) := by
  refine ⟨by decide, by decide, rfl, ?_⟩
  exact (c3_nsec_tag_accepted c3Env c3Opts [] "nsec1goodkey" [ReadResult.line "n"]
    rfl rfl rfl rfl (by decide) (by decide) (by decide)).2
    "bbbbbbbbbbbbbbbbbbbbbbbbbbbbbbbbbbbbbbbbbbbbbbbbbbbbbbbbbbbbbbbb" rfl (by decide)

/-- A read error reaching the read loop at any point — after any number of
rejected answers — stops the loop at once: the error is returned unchanged
and the closure state is exactly the updates of the rejected answers. -/
theorem askLoop_err_skip {σ : Type} (p : AskPred σ) (e : ReadErr)
    (rest : List ReadResult) :
    ∀ (pws : List String) (s : σ),
      (∀ pw ∈ pws, p.retry (normalize pw) = true) →
      askLoop (some p) s (pws.map ReadResult.line ++ ReadResult.err e :: rest)
        = (Except.error e, pws.foldl (fun t l => p.update t (normalize l)) s, rest) := by
  intro pws
  induction pws with
  | nil => intro s h; simp [askLoop]
  | cons q qs ih =>
    intro s h
    simp only [List.map_cons, List.cons_append, askLoop, List.foldl_cons]
    rw [if_pos (h q (by simp))]
    exact ih (p.update s (normalize q)) (fun pw hpw => h pw (by simp [hpw]))

/-- An environment for C6 (no collaborator is exercised on its runs). -/
def c6Env : Env where
  clientKey := "ck"
  connectBunker := fun _ _ => Except.error "unreachable"
  nip19Decode := fun _ => Except.error "bad"

/-- Options with everything unset, for C6. -/
def c6Opts : Options where
  connect := ""
  sec := ""
  secSet := false
  storeSec := false

/-- A decrypt collaborator for the C6 witness: every attempt fails. -/
def c6Decrypt : String → String → Except String String :=
  fun _ _ => Except.error "bad"

/-- C6, counterexample.  The claim says an interrupt during the resolver's
interactive secret prompt surfaces that interrupt error from the resolver.
The read loop does return the interrupt (first conjunct), but the resolver
discards the prompt's error (`sec, _ = ask(...)`, src/helpers.go:55) and,
seeing an empty secret, reports "couldn't gather secret key" instead
(src/helpers.go:70-72) — the run below returns `GErr.couldntGather`, not the
interrupt (no resolver error kind even carries a read error). -/
theorem c6_counterexample :
    _ask "" (some secretPred) false [ReadResult.err ReadErr.interrupt]
        = (Except.error ReadErr.interrupt, false, []) ∧
      gatherSecretKeyOrBunker c6Env c6Opts [] [ReadResult.err ReadErr.interrupt]
        = { result := Except.error GErr.couldntGather, store := [("str.bunker", "")],
            events := [Event.setConfig "str.bunker" "", Event.getConfig "str.secretkey",
              Event.askSecret],
            rest := [] } :=
  ⟨rfl, rfl⟩

/-- C6, amended.  A read error (such as an interrupt) short-circuits the
read loop it occurs in, after any number of rejected answers, and is
returned unchanged by `_ask`; `promptDecrypt` propagates it verbatim to its
caller.  The credential resolver, however, does not: it discards the prompt
error and returns its own "couldn't gather secret key" error instead. -/
theorem c6_interrupt_short_circuits {σ : Type} (env : Env) (c : Options)
    (store : Store) (p : AskPred σ) (s : σ) (pws : List String) (e : ReadErr)
    (rest rest₂ : List ReadResult)
    (decrypt : String → String → Except String String) (blob : String)
    (hretry : ∀ pw ∈ pws, p.retry (normalize pw) = true)
    (h1 : c.connect = "")
    (h3 : c.sec = "") (h4 : c.secSet = false)
    (h5 : gitGet store "str.secretkey" = "") :
    _ask "" (some p) s (pws.map ReadResult.line ++ ReadResult.err e :: rest)
        = (Except.error e, pws.foldl (fun t l => p.update t (normalize l)) s, rest) ∧
    promptDecrypt decrypt blob (ReadResult.err e :: rest)
        = (Except.error (DecErr.read e), [], rest) ∧
    (gatherSecretKeyOrBunker env c store (ReadResult.err e :: rest₂)).result
        = Except.error GErr.couldntGather := by
  refine ⟨?_, rfl, ?_⟩
  · unfold _ask
    rw [withDefault_empty]
    exact askLoop_err_skip p e rest pws s hretry
  · have h5' : gitGet (gitSet store "str.bunker" "") "str.secretkey" = "" := by
      rw [gitGet_gitSet_ne store "str.bunker" "" "str.secretkey" (by decide)]
      exact h5
    have hrc : resolveCandidate c (gitSet store "str.bunker" "") (ReadResult.err e :: rest₂)
        = (Except.error GErr.couldntGather,
            [Event.getConfig "str.secretkey", Event.askSecret], rest₂) := by
      unfold resolveCandidate
      dsimp only
      rw [h3, h4, h5']
      simp only [if_pos (And.intro rfl rfl), if_pos rfl]
      unfold ask _ask
      rw [withDefault_empty]
      simp [askLoop]
    unfold gatherSecretKeyOrBunker
    dsimp only
    rw [h1]
    simp only [reduceIte]
    rw [if_neg (by simp), hrc]

theorem c6_witness :
    (∀ pw ∈ (["junk"] : List String), secretPred.retry (normalize pw) = true) ∧
    _ask "" (some secretPred) false
        [ReadResult.line "junk", ReadResult.err ReadErr.interrupt]
      = (Except.error ReadErr.interrupt, false, []) ∧
    promptDecrypt c6Decrypt "blob" [ReadResult.err ReadErr.interrupt]
      = (Except.error (DecErr.read ReadErr.interrupt), [], []) ∧
    (gatherSecretKeyOrBunker c6Env c6Opts []
        [ReadResult.err ReadErr.interrupt]).result = Except.error GErr.couldntGather := by
  have h := c6_interrupt_short_circuits (σ := Bool) c6Env c6Opts [] secretPred false
    ["junk"] ReadErr.interrupt [] [] c6Decrypt "blob"
    (by intro pw hpw; simp at hpw; rw [hpw]; decide) rfl rfl rfl rfl
  exact ⟨by intro pw hpw; simp at hpw; rw [hpw]; decide, h.1, h.2.1, h.2.2⟩

end Gitstr
